import Mathlib

/-
  Verification development for the European power / DHL parcel-center
  truck-assignment optimizer.

  The definitions below are a shallow embedding of the MILP construction in
  `Optimization_gurobi.py` and `Streamlit_code.py` (class `DHL_Optimization`):
  the list comprehensions of `initialize_model`, the constraint families of
  `add_constraints`, the shift-time normalization, and the status dispatch of
  `solve`.  Binary decision variables are embedded as `Bool`-valued functions,
  continuous variables as `ℚ`, and each `model.addConstr` loop becomes a
  `Bool`-valued family evaluated over the same index lists the Python code
  iterates over.  A model valuation is feasible exactly when every emitted
  constraint evaluates to `true`.
-/

set_option maxRecDepth 40000

namespace DHLOpt

/-- The 0/1 rational value taken by a binary MILP variable. -/
def bool01 (b : Bool) : ℚ := if b then 1 else 0

/-- One row of the consignment table (`source_df`): id, origin facility,
destination facility, the hour and minute components of
`planned_end_of_loading`, and `Consignment quantity`. -/
structure Consignment where
  id : ℕ
  origin : ℕ
  dest : ℕ
  relHour : ℕ
  relMinute : ℕ
  qty : ℚ
deriving DecidableEq

/-- One row of the destination table (`destination_df`) after shift-time
normalization: facility id, `Start of shift`, `End of lay-on`, and the hourly
`Sorting capacity`. -/
structure DestRow where
  id : ℕ
  startShift : ℚ
  endShift : ℚ
  sortRate : ℚ
deriving DecidableEq

/-- One row of the trucking table (`trucking_df`): origin, destination and
`OSRM_time [sek]`. -/
structure RouteRow where
  origin : ℕ
  dest : ℕ
  osrmTimeSec : ℚ
deriving DecidableEq

/-- The inputs of one optimization run: the selected source facilities, the
selected destination facilities, and the three data tables. -/
structure Inst where
  sources : List ℕ
  destinations : List ℕ
  consignments : List Consignment
  destRows : List DestRow
  routeRows : List RouteRow

/-- The truck pool, `self.trucks = range(300)`. -/
def trucksL : List ℕ := List.range 300

/-- The day horizon of the interactive model, `range(1, 7)`. -/
def daysL : List ℕ := List.range' 1 6

/-- The route pairs, `[(i, j) for i in source_list for j in destination_list
if i != j]`. -/
def routesList (I : Inst) : List (ℕ × ℕ) :=
  I.sources.flatMap fun i => (I.destinations.filter fun j => i != j).map fun j => (i, j)

/-- The consignment ids gathered per route,
`[x for (i, j) in routes_list for x in source_df[(Origin == i) & (Dest == j)]['id'].values]`. -/
def consignmentList (I : Inst) : List ℕ :=
  (routesList I).flatMap fun p =>
    (I.consignments.filter fun r => r.origin == p.1 && r.dest == p.2).map fun r => r.id

/-- The valid (route, consignment) combinations,
`[(i, j, k) for (i, j) in routes_list for k in consignment_list
  if k in source_df[(Origin == i) & (Dest == j)]['id'].values]`. -/
def validCombinations (I : Inst) : List (ℕ × ℕ × ℕ) :=
  (routesList I).flatMap fun p =>
    (((consignmentList I).filter fun k =>
        ((I.consignments.filter fun r => r.origin == p.1 && r.dest == p.2).map
          fun r => r.id).contains k).map fun k => (p.1, p.2, k))

/-- Hour component of a consignment's release timestamp:
`source_df[source_df['id'] == k]['planned_end_of_loading'].dt.hour.values[0]`. -/
def relHourOf (I : Inst) (k : ℕ) : ℕ :=
  ((I.consignments.find? fun r => r.id == k).map fun r => r.relHour).getD 0

/-- Minute component of a consignment's release timestamp (present in the data,
discarded by the constraint builder, which reads only `.dt.hour`). -/
def relMinuteOf (I : Inst) (k : ℕ) : ℕ :=
  ((I.consignments.find? fun r => r.id == k).map fun r => r.relMinute).getD 0

/-- A consignment's quantity:
`source_df[source_df['id'] == k]['Consignment quantity'].values[0]`. -/
def qtyOf (I : Inst) (k : ℕ) : ℚ :=
  ((I.consignments.find? fun r => r.id == k).map fun r => r.qty).getD 0

/-- The destination's normalized shift start:
`destination_df[destination_df['Destination_ID'] == j]['Start of shift'].values[0]`. -/
def startShiftOf (I : Inst) (j : ℕ) : ℚ :=
  ((I.destRows.find? fun r => r.id == j).map fun r => r.startShift).getD 0

/-- The destination's normalized shift end:
`destination_df[destination_df['Destination_ID'] == j]['End of lay-on'].values[0]`. -/
def endShiftOf (I : Inst) (j : ℕ) : ℚ :=
  ((I.destRows.find? fun r => r.id == j).map fun r => r.endShift).getD 0

/-- The destination's hourly sorting rate:
`destination_df[destination_df['Destination_ID'] == j]['Sorting capacity'].values[0]`. -/
def sortRateOf (I : Inst) (j : ℕ) : ℚ :=
  ((I.destRows.find? fun r => r.id == j).map fun r => r.sortRate).getD 0

/-- A route's travel time in hours:
`trucking_df[(Origin == i) & (Dest == j)]['OSRM_time [sek]'].values[0] / 3600`. -/
def travelTimeOf (I : Inst) (i j : ℕ) : ℚ :=
  (((I.routeRows.find? fun r => r.origin == i && r.dest == j).map
    fun r => r.osrmTimeSec).getD 0) / 3600

/-- A valuation of all decision variables of one run: the binary assignment
variables `X[(i,j,k,l)]`, the binary truck-usage variables `Z[l]`, the
continuous departure times `T[l]` (lower bound 0), the binary day indicators
`ArrivalDayBinary[(l,d)]`, and the free nonnegative integer `multiplier`
variables created inside constraint 3 (one per `(i,j,k,l)`, default lower
bound 0). -/
structure Valuation where
  X : ℕ × ℕ × ℕ → ℕ → Bool
  Z : ℕ → Bool
  T : ℕ → ℚ
  B : ℕ → ℕ → Bool
  M : ℕ × ℕ × ℕ → ℕ → ℕ

/-- Constraint 1 of `add_constraints`: each truck carries at most two
consignments, `quicksum(X[(i,j,k,l)] for (i,j,k) in valid_combinations)
<= 2 * Z[l]` for every truck `l`. -/
def capacityOK (I : Inst) (V : Valuation) : Bool :=
  trucksL.all fun l =>
    decide ((((validCombinations I).map fun c => bool01 (V.X c l)).sum) ≤ 2 * bool01 (V.Z l))

/-- Constraint 2 of `add_constraints`: release-time gating,
`T[l] >= release_time * X[(i,j,k,l)]` for every valid combination and truck,
where `release_time` is the whole-hour component of `planned_end_of_loading`. -/
def releaseOK (I : Inst) (V : Valuation) : Bool :=
  (validCombinations I).all fun c =>
    trucksL.all fun l =>
      decide ((relHourOf I c.2.2 : ℚ) * bool01 (V.X c l) ≤ V.T l)

/-- The day-offset sum of the interactive model,
`quicksum((d-1) * ArrivalDayBinary[(l, d)] for d in range(1, 7))`. -/
def daySum (V : Valuation) (l : ℕ) : ℚ :=
  (daysL.map fun (d : ℕ) => ((d : ℚ) - 1) * bool01 (V.B l d)).sum

/-- The arrival-time expression the interactive builder assigns before
constraint 3: `T[l] + travel_time * X[(i,j,k,l)] + 24 * quicksum((d-1) *
ArrivalDayBinary[(l,d)]) - 24 * multiplier_{i,j,k,l}`. -/
def arrivalExpr (I : Inst) (V : Valuation) (c : ℕ × ℕ × ℕ) (l : ℕ) : ℚ :=
  V.T l + travelTimeOf I c.1 c.2.1 * bool01 (V.X c l) + 24 * daySum V l
    - 24 * (V.M c l : ℚ)

/-- Constraint 3 of `add_constraints`: the arrival-time expression lies within
the destination's operational shift window, `start_shift <= ArrivalTime[l]`
and `ArrivalTime[l] <= end_shift`, emitted per valid combination and truck. -/
def windowOK (I : Inst) (V : Valuation) : Bool :=
  (validCombinations I).all fun c =>
    trucksL.all fun l =>
      decide (startShiftOf I c.2.1 ≤ arrivalExpr I V c l) &&
      decide (arrivalExpr I V c l ≤ endShiftOf I c.2.1)

/-- Constraint 4 of the interactive builder (`Streamlit_code.py`):
`quicksum(X[(i,j,k,l)] * Z[l] for l in trucks) == 1` per valid combination. -/
def uniqueStreamlitOK (I : Inst) (V : Valuation) : Bool :=
  (validCombinations I).all fun c =>
    decide (((trucksL.map fun l => bool01 (V.X c l) * bool01 (V.Z l)).sum) = 1)

/-- Constraint 4 of the batch builder (`Optimization_gurobi.py`):
`quicksum(X[(i,j,k,l)] for l in trucks) == 1` per valid combination. -/
def uniqueGurobiOK (I : Inst) (V : Valuation) : Bool :=
  (validCombinations I).all fun c =>
    decide (((trucksL.map fun l => bool01 (V.X c l)).sum) = 1)

/-- The per-day sorting capacity of the interactive builder:
`working_hours / 2 * Sorting capacity`, with
`working_hours = End of lay-on - Start of shift`. -/
def sortCapPerDay (I : Inst) (j : ℕ) : ℚ :=
  (endShiftOf I j - startShiftOf I j) / 2 * sortRateOf I j

/-- The iteration list of the sorting-capacity sum:
`for i in source_list if j != i for k in consignment_list for l in trucks
if (i, j, k) in valid_combinations`, as `(i, k, l)` triples. -/
def sortTriples (I : Inst) (j : ℕ) : List (ℕ × ℕ × ℕ) :=
  (((I.sources.filter fun i => j != i).flatMap fun i =>
      (consignmentList I).flatMap fun k =>
        trucksL.map fun l => (i, k, l)).filter fun t =>
          (validCombinations I).contains (t.1, j, t.2.1))

/-- The left-hand side of the sorting-capacity constraint of the interactive
builder: `quicksum(X[(i,j,k,l)] * quantity(k) * ArrivalDayBinary[(l,d)] ...)`. -/
def sortLHS (I : Inst) (V : Valuation) (j d : ℕ) : ℚ :=
  ((sortTriples I j).map fun t =>
    bool01 (V.X (t.1, j, t.2.1) t.2.2) * qtyOf I t.2.1 * bool01 (V.B t.2.2 d)).sum

/-- Constraint 5.1 of the interactive builder: for every destination and every
day of the horizon, the quantity-weighted arrival sum is at most the per-day
sorting capacity. -/
def sortingOK (I : Inst) (V : Valuation) : Bool :=
  I.destinations.all fun j =>
    daysL.all fun d => decide (sortLHS I V j d ≤ sortCapPerDay I j)

/-- Constraint 5.2 of the interactive builder, named `Assigning Arrival Day to
each used truck`: `quicksum(ArrivalDayBinary[(l,d)] * Z[l] for d in
range(1, 7)) == 1` for every truck `l`. -/
def dayAssignOK (V : Valuation) : Bool :=
  trucksL.all fun l =>
    decide (((daysL.map fun d => bool01 (V.B l d) * bool01 (V.Z l)).sum) = 1)

/-- The variable bound `lb=0` on every departure-time variable `T[l]`. -/
def tNonnegOK (V : Valuation) : Bool :=
  trucksL.all fun l => decide (0 ≤ V.T l)

/-- A valuation is feasible for the interactive (`Streamlit_code.py`) model
when every constraint emitted by `add_constraints`, together with the
variable bounds, evaluates to true. -/
def feasibleStreamlit (I : Inst) (V : Valuation) : Bool :=
  capacityOK I V && releaseOK I V && windowOK I V && uniqueStreamlitOK I V &&
    sortingOK I V && dayAssignOK V && tNonnegOK V

/-- Shift-time normalization (`normalize` in both files): split a raw clock
time into fractional hours, and push the end hour to the next day when it
precedes the start hour. Arguments are the hour and minute components of
`Start of shift` and `End of lay-on`. -/
def normalize (sh sm eh em : ℕ) : ℚ × ℚ :=
  let startHour : ℚ := sh + sm / 60
  let endHour : ℚ := eh + em / 60
  if endHour < startHour then (startHour, endHour + 24) else (startHour, endHour)

/-- Solver termination statuses distinguished by `solve`. -/
inductive GStatus
  | optimal
  | timeLimit
  | suboptimal
  | infeasible
  | unbounded
  | err
deriving DecidableEq

/-- The status test of `solve`:
`self.model.status in [GRB.OPTIMAL, GRB.TIME_LIMIT, GRB.SUBOPTIMAL]`. -/
def statusAccepted : GStatus → Bool
  | .optimal => true
  | .timeLimit => true
  | .suboptimal => true
  | _ => false

/-- What `solve` produces after the solver returns.  The code either writes
the extracted plan rows to `output/output.csv` or prints
`No optimal solution found.`; the `raisedError` case exists only to state the
specification's error contract and is never produced by the code. -/
inductive SolveOutcome
  | plan (rows : List ((ℕ × ℕ × ℕ) × ℕ))
  | printedNoSolution
  | raisedError (nm : String)
deriving DecidableEq

/-- The extraction loop of `solve`: all `(i, j, k, l)` keys of `X` with
`Z[l].X == 1 and X[i,j,k,l].X == 1`. -/
def extractRows (I : Inst) (V : Valuation) : List ((ℕ × ℕ × ℕ) × ℕ) :=
  (((validCombinations I).flatMap fun c => trucksL.map fun l => (c, l)).filter
    fun cl => V.Z cl.2 && V.X cl.1 cl.2)

/-- The status dispatch of `solve`: extract a plan on an accepted status,
otherwise print `No optimal solution found.`. -/
def solveOutcome (I : Inst) (V : Valuation) (s : GStatus) : SolveOutcome :=
  if statusAccepted s then .plan (extractRows I V) else .printedNoSolution

/-- Modelled from the spec: the day-assignment constraint as the specification
states it in section 4.2, `quicksum(ArrivalDayBinary[(l,d)] * Z[l] for d) ==
Z[l]` for every truck (exactly one arrival day when used, none when unused).
The code's actual constraint is `dayAssignOK`. -/
def specDayAssignOK (V : Valuation) : Bool :=
  trucksL.all fun l =>
    decide (((daysL.map fun d => bool01 (V.B l d) * bool01 (V.Z l)).sum) = bool01 (V.Z l))

/-- Modelled from the spec: the effective arrival hour as the specification
states it in section 4.2, `T[l] + travel_time(i,j) * X[i,j,k,l] +
24 * sum((d-1) * ArrivalDayBinary[l,d])` with no other additive terms.  The
code's actual expression is `arrivalExpr`, which also subtracts
`24 * multiplier`. -/
def specArrivalExpr (I : Inst) (V : Valuation) (c : ℕ × ℕ × ℕ) (l : ℕ) : ℚ :=
  V.T l + travelTimeOf I c.1 c.2.1 * bool01 (V.X c l) + 24 * daySum V l

/-- The total assignment mass of consignment `k`: the sum of `X[i,j,k,l]`
over all compatible routes `(i, j)` (the valid combinations carrying id `k`)
and all trucks `l` of the pool. -/
def consignAssignTotal (I : Inst) (V : Valuation) (k : ℕ) : ℚ :=
  (((validCombinations I).filter fun c => c.2.2 == k).map fun c =>
    (trucksL.map fun l => bool01 (V.X c l)).sum).sum

/-- The (route, consignment, truck) pairs that actually carry consignment `k`
under a valuation: all `(c, l)` with `c` a valid combination for id `k` and
`X[c, l] = 1`. -/
def carrierPairs (I : Inst) (V : Valuation) (k : ℕ) : List ((ℕ × ℕ × ℕ) × ℕ) :=
  ((validCombinations I).filter fun c => c.2.2 == k).flatMap fun c =>
    (trucksL.filter fun l => V.X c l).map fun l => (c, l)

/-- How many consignments truck `l` carries: the number of valid combinations
assigned to it. -/
def carriedCount (I : Inst) (V : Valuation) (l : ℕ) : ℕ :=
  ((validCombinations I).filter fun c => V.X c l).length

/-- All (valid combination, truck) pairs whose combination is bound for
destination `j`. -/
def assignPairs (I : Inst) (j : ℕ) : List ((ℕ × ℕ × ℕ) × ℕ) :=
  ((validCombinations I).filter fun c => c.2.1 == j).flatMap fun c =>
    trucksL.map fun l => (c, l)

/-- The total quantity arriving at destination `j` on day `d`: over every
(valid combination, truck) pair bound for `j`, the consignment's quantity
counted when the pair is assigned (`X = 1`) and the truck arrives on day `d`
(`ArrivalDayBinary[(l, d)] = 1`). -/
def arrivedQty (I : Inst) (V : Valuation) (j d : ℕ) : ℚ :=
  ((assignPairs I j).map fun cl =>
    bool01 (V.X cl.1 cl.2) * qtyOf I cl.1.2.2 * bool01 (V.B cl.2 d)).sum

/-- A consignment released at 08:59 with quantity 5, travelling the single
route 1 → 2. -/
def cons1 : Consignment := ⟨10, 1, 2, 8, 59, 5⟩

/-- A consignment whose origin facility 3 is absent from the route catalog. -/
def cons2 : Consignment := ⟨11, 3, 2, 8, 0, 5⟩

/-- A one-source, one-destination, one-consignment run: source 1,
destination 2 with shift window [0, 24] and rate 100, travel time one hour. -/
def inst1 : Inst :=
  { sources := [1], destinations := [2], consignments := [cons1],
    destRows := [⟨2, 0, 24, 100⟩], routeRows := [⟨1, 2, 3600⟩] }

/-- A valuation of `inst1`: truck 0 carries the consignment, all trucks are
marked used with arrival day 1, all departure times are hour 8. -/
def val1 : Valuation :=
  { X := fun c l => c == (1, 2, 10) && l == 0
    Z := fun _ => true
    T := fun _ => 8
    B := fun _ d => d == 1
    M := fun _ _ => 0 }

/-- A run with a 30-hour travel time and a tight destination window [5, 7]:
the consignment (id 10, released at 00:00) still admits a feasible plan
because the emitted arrival constraint subtracts `24 * multiplier`. -/
def inst2 : Inst :=
  { sources := [1], destinations := [2],
    consignments := [⟨10, 1, 2, 0, 0, 5⟩],
    destRows := [⟨2, 5, 7, 100⟩], routeRows := [⟨1, 2, 108000⟩] }

/-- A valuation of `inst2`: truck 0 departs at hour 0, carries the
consignment and uses multiplier 1 (30 - 24 = 6 lands in [5, 7]); every other
truck idles at departure hour 6 with multiplier 0. -/
def val2 : Valuation :=
  { X := fun c l => c == (1, 2, 10) && l == 0
    Z := fun _ => true
    T := fun l => if l == 0 then 0 else 6
    B := fun _ d => d == 1
    M := fun _ l => if l == 0 then 1 else 0 }

/-- A run whose consignment table contains `cons2`, whose origin/destination
pair (3, 2) appears nowhere in the route catalog `routeRows` (and origin 3 is
not a selected source). -/
def inst3 : Inst :=
  { sources := [1], destinations := [2], consignments := [cons1, cons2],
    destRows := [⟨2, 0, 24, 100⟩], routeRows := [⟨1, 2, 3600⟩] }

/-- The all-zero valuation: no truck used, nothing assigned, no day selected. -/
def valZero : Valuation :=
  { X := fun _ _ => false
    Z := fun _ => false
    T := fun _ => 0
    B := fun _ _ => false
    M := fun _ _ => 0 }

lemma bool01_nonneg (b : Bool) : 0 ≤ bool01 b := by
  cases b <;> norm_num [bool01]

lemma bool01_le_one (b : Bool) : bool01 b ≤ 1 := by
  cases b <;> norm_num [bool01]

lemma bool01_true : bool01 true = 1 := rfl

lemma bool01_false : bool01 false = 0 := rfl

/-- A sum of 0/1 indicator values counts the elements accepted by the
predicate. -/
lemma list_sum_bool01 (L : List α) (f : α → Bool) :
    ((L.map fun a => bool01 (f a)).sum) = ((L.filter f).length : ℚ) := by
  induction L with
  | nil => simp
  | cons a t ih =>
    rw [List.map_cons, List.sum_cons, List.filter_cons, ih]
    by_cases h : f a = true
    · rw [h, bool01_true]
      simp only [if_pos trivial, h, List.length_cons]
      push_cast
      ring
    · have h' : f a = false := by simpa using h
      rw [h', bool01_false, zero_add]
      simp [h']

lemma daysL_eq : daysL = [1, 2, 3, 4, 5, 6] := rfl

lemma capacityOK_iff (I : Inst) (V : Valuation) :
    capacityOK I V = true ↔
      ∀ l ∈ trucksL,
        (((validCombinations I).map fun c => bool01 (V.X c l)).sum) ≤ 2 * bool01 (V.Z l) := by
  simp [capacityOK, List.all_eq_true]

lemma releaseOK_iff (I : Inst) (V : Valuation) :
    releaseOK I V = true ↔
      ∀ c ∈ validCombinations I, ∀ l ∈ trucksL,
        (relHourOf I c.2.2 : ℚ) * bool01 (V.X c l) ≤ V.T l := by
  simp [releaseOK, List.all_eq_true]

lemma windowOK_iff (I : Inst) (V : Valuation) :
    windowOK I V = true ↔
      ∀ c ∈ validCombinations I, ∀ l ∈ trucksL,
        startShiftOf I c.2.1 ≤ arrivalExpr I V c l ∧
          arrivalExpr I V c l ≤ endShiftOf I c.2.1 := by
  simp [windowOK, List.all_eq_true]

lemma uniqueStreamlitOK_iff (I : Inst) (V : Valuation) :
    uniqueStreamlitOK I V = true ↔
      ∀ c ∈ validCombinations I,
        ((trucksL.map fun l => bool01 (V.X c l) * bool01 (V.Z l)).sum) = 1 := by
  simp [uniqueStreamlitOK, List.all_eq_true]

lemma uniqueGurobiOK_iff (I : Inst) (V : Valuation) :
    uniqueGurobiOK I V = true ↔
      ∀ c ∈ validCombinations I,
        ((trucksL.map fun l => bool01 (V.X c l)).sum) = 1 := by
  simp [uniqueGurobiOK, List.all_eq_true]

lemma sortingOK_iff (I : Inst) (V : Valuation) :
    sortingOK I V = true ↔
      ∀ j ∈ I.destinations, ∀ d ∈ daysL, sortLHS I V j d ≤ sortCapPerDay I j := by
  simp [sortingOK, List.all_eq_true]

lemma dayAssignOK_iff (V : Valuation) :
    dayAssignOK V = true ↔
      ∀ l ∈ trucksL,
        ((daysL.map fun d => bool01 (V.B l d) * bool01 (V.Z l)).sum) = 1 := by
  simp [dayAssignOK, List.all_eq_true]

lemma tNonnegOK_iff (V : Valuation) :
    tNonnegOK V = true ↔ ∀ l ∈ trucksL, 0 ≤ V.T l := by
  simp [tNonnegOK, List.all_eq_true]

lemma feasibleStreamlit_iff (I : Inst) (V : Valuation) :
    feasibleStreamlit I V = true ↔
      capacityOK I V = true ∧ releaseOK I V = true ∧ windowOK I V = true ∧
        uniqueStreamlitOK I V = true ∧ sortingOK I V = true ∧
        dayAssignOK V = true ∧ tNonnegOK V = true := by
  simp [feasibleStreamlit, Bool.and_eq_true, and_assoc]

lemma validCombinations_inst1 : validCombinations inst1 = [(1, 2, 10)] := by decide

lemma relHourOf_inst1 : relHourOf inst1 10 = 8 := rfl

lemma qtyOf_inst1 : qtyOf inst1 10 = 5 := rfl

lemma startShiftOf_inst1 : startShiftOf inst1 2 = 0 := rfl

lemma endShiftOf_inst1 : endShiftOf inst1 2 = 24 := rfl

lemma sortRateOf_inst1 : sortRateOf inst1 2 = 100 := rfl

lemma travelTimeOf_inst1 : travelTimeOf inst1 1 2 = 1 := by
  have h : travelTimeOf inst1 1 2 = (3600 : ℚ) / 3600 := rfl
  rw [h]
  norm_num

lemma daySum_val1 (l : ℕ) : daySum val1 l = 0 := by
  norm_num [daySum, daysL_eq, val1, bool01]

lemma arrivalExpr_inst1 (l : ℕ) :
    arrivalExpr inst1 val1 (1, 2, 10) l = 8 + bool01 (val1.X (1, 2, 10) l) := by
  have h : arrivalExpr inst1 val1 (1, 2, 10) l
      = val1.T l + travelTimeOf inst1 1 2 * bool01 (val1.X (1, 2, 10) l)
        + 24 * daySum val1 l - 24 * ((0 : ℕ) : ℚ) := rfl
  rw [h, daySum_val1, travelTimeOf_inst1, show val1.T l = 8 from rfl]
  push_cast
  ring

lemma capacityOK_inst1 : capacityOK inst1 val1 = true := by
  rw [capacityOK_iff]
  intro l _
  rw [validCombinations_inst1, List.map_cons, List.map_nil, List.sum_cons,
    List.sum_nil, add_zero, show val1.Z l = true from rfl, bool01_true]
  have h := bool01_le_one (val1.X (1, 2, 10) l)
  linarith

lemma releaseOK_inst1 : releaseOK inst1 val1 = true := by
  rw [releaseOK_iff]
  intro c hc l _
  rw [validCombinations_inst1, List.mem_singleton] at hc
  subst hc
  have h1 := bool01_le_one (val1.X (1, 2, 10) l)
  have h0 := bool01_nonneg (val1.X (1, 2, 10) l)
  show (relHourOf inst1 10 : ℚ) * bool01 (val1.X (1, 2, 10) l) ≤ val1.T l
  rw [relHourOf_inst1, show val1.T l = 8 from rfl]
  push_cast
  nlinarith

lemma windowOK_inst1 : windowOK inst1 val1 = true := by
  rw [windowOK_iff]
  intro c hc l _
  rw [validCombinations_inst1, List.mem_singleton] at hc
  subst hc
  have h1 := bool01_le_one (val1.X (1, 2, 10) l)
  have h0 := bool01_nonneg (val1.X (1, 2, 10) l)
  constructor
  · show startShiftOf inst1 2 ≤ arrivalExpr inst1 val1 (1, 2, 10) l
    rw [startShiftOf_inst1, arrivalExpr_inst1]
    linarith
  · show arrivalExpr inst1 val1 (1, 2, 10) l ≤ endShiftOf inst1 2
    rw [endShiftOf_inst1, arrivalExpr_inst1]
    linarith

lemma count_val1_X : ((trucksL.filter fun l => val1.X (1, 2, 10) l).length) = 1 := by decide

lemma uniqueStreamlitOK_inst1 : uniqueStreamlitOK inst1 val1 = true := by
  rw [uniqueStreamlitOK_iff]
  intro c hc
  rw [validCombinations_inst1, List.mem_singleton] at hc
  subst hc
  have he : (fun l => bool01 (val1.X (1, 2, 10) l) * bool01 (val1.Z l))
      = fun l => bool01 (val1.X (1, 2, 10) l) := by
    funext l
    rw [show val1.Z l = true from rfl, bool01_true, mul_one]
  show ((trucksL.map fun l => bool01 (val1.X (1, 2, 10) l) * bool01 (val1.Z l)).sum) = 1
  rw [he, list_sum_bool01, count_val1_X]
  norm_num

lemma uniqueGurobiOK_inst1 : uniqueGurobiOK inst1 val1 = true := by
  rw [uniqueGurobiOK_iff]
  intro c hc
  rw [validCombinations_inst1, List.mem_singleton] at hc
  subst hc
  show ((trucksL.map fun l => bool01 (val1.X (1, 2, 10) l)).sum) = 1
  rw [list_sum_bool01, count_val1_X]
  norm_num

lemma sortTriples_inst1 :
    sortTriples inst1 2 = (List.range 300).map fun l => (1, 10, l) := by decide

lemma sortCapPerDay_inst1 : sortCapPerDay inst1 2 = 1200 := by
  rw [sortCapPerDay, startShiftOf_inst1, endShiftOf_inst1, sortRateOf_inst1]
  norm_num

lemma sortingOK_inst1 : sortingOK inst1 val1 = true := by
  rw [sortingOK_iff]
  intro j hj d _
  have hj2 : j = 2 := by simpa [inst1] using hj
  subst hj2
  rw [sortCapPerDay_inst1]
  have hL : sortLHS inst1 val1 2 d
      = ((List.range 300).map fun l =>
          bool01 (val1.X (1, 2, 10) l) * qtyOf inst1 10 * bool01 (val1.B l d)).sum := by
    rw [sortLHS, sortTriples_inst1, List.map_map]
    rfl
  rw [hL]
  have hb : ∀ l ∈ List.range 300,
      bool01 (val1.X (1, 2, 10) l) * qtyOf inst1 10 * bool01 (val1.B l d)
        ≤ 5 * bool01 (val1.X (1, 2, 10) l) := by
    intro l _
    have h1 := bool01_le_one (val1.B l d)
    have h0 := bool01_nonneg (val1.B l d)
    have h2 := bool01_le_one (val1.X (1, 2, 10) l)
    have h3 := bool01_nonneg (val1.X (1, 2, 10) l)
    rw [qtyOf_inst1]
    nlinarith
  have hs := List.sum_le_sum hb
  have hr : ((List.range 300).map fun l => 5 * bool01 (val1.X (1, 2, 10) l)).sum = 5 := by
    rw [List.sum_map_mul_left]
    have : ((List.range 300).map fun l => bool01 (val1.X (1, 2, 10) l)).sum
        = (((List.range 300).filter fun l => val1.X (1, 2, 10) l).length : ℚ) :=
      list_sum_bool01 _ _
    rw [this, show ((List.range 300).filter fun l => val1.X (1, 2, 10) l).length = 1 by decide]
    norm_num
  calc ((List.range 300).map fun l =>
          bool01 (val1.X (1, 2, 10) l) * qtyOf inst1 10 * bool01 (val1.B l d)).sum
      ≤ ((List.range 300).map fun l => 5 * bool01 (val1.X (1, 2, 10) l)).sum := hs
    _ = 5 := hr
    _ ≤ 1200 := by norm_num

lemma dayAssignOK_val1 : dayAssignOK val1 = true := by
  rw [dayAssignOK_iff]
  intro l _
  norm_num [daysL_eq, val1, bool01]

lemma tNonnegOK_val1 : tNonnegOK val1 = true := by
  rw [tNonnegOK_iff]
  intro l _
  norm_num [val1]

/-- The valuation `val1` satisfies every constraint the interactive builder
emits on `inst1`. -/
lemma feas1 : feasibleStreamlit inst1 val1 = true :=
  (feasibleStreamlit_iff inst1 val1).mpr
    ⟨capacityOK_inst1, releaseOK_inst1, windowOK_inst1, uniqueStreamlitOK_inst1,
      sortingOK_inst1, dayAssignOK_val1, tNonnegOK_val1⟩

lemma validCombinations_inst2 : validCombinations inst2 = [(1, 2, 10)] := by decide

lemma qtyOf_inst2 : qtyOf inst2 10 = 5 := rfl

lemma startShiftOf_inst2 : startShiftOf inst2 2 = 5 := rfl

lemma endShiftOf_inst2 : endShiftOf inst2 2 = 7 := rfl

lemma sortRateOf_inst2 : sortRateOf inst2 2 = 100 := rfl

lemma travelTimeOf_inst2 : travelTimeOf inst2 1 2 = 30 := by
  have h : travelTimeOf inst2 1 2 = (108000 : ℚ) / 3600 := rfl
  rw [h]
  norm_num

lemma daySum_val2 (l : ℕ) : daySum val2 l = 0 := by
  norm_num [daySum, daysL_eq, val2, bool01]

lemma arrivalExpr_inst2 (l : ℕ) : arrivalExpr inst2 val2 (1, 2, 10) l = 6 := by
  have h : arrivalExpr inst2 val2 (1, 2, 10) l
      = val2.T l + travelTimeOf inst2 1 2 * bool01 (val2.X (1, 2, 10) l)
        + 24 * daySum val2 l - 24 * ((val2.M (1, 2, 10) l : ℕ) : ℚ) := rfl
  rw [h, daySum_val2, travelTimeOf_inst2]
  by_cases hl : l = 0
  · subst hl
    norm_num [val2, bool01]
  · have hb : (l == 0) = false := by simpa using hl
    have hx : val2.X (1, 2, 10) l = false := by simp [val2, hb, hl]
    have ht : val2.T l = 6 := by simp [val2, hb, hl]
    have hm : val2.M (1, 2, 10) l = 0 := by simp [val2, hb, hl]
    rw [hx, ht, hm, bool01_false]
    push_cast
    ring

lemma capacityOK_inst2 : capacityOK inst2 val2 = true := by
  rw [capacityOK_iff]
  intro l _
  rw [validCombinations_inst2, List.map_cons, List.map_nil, List.sum_cons,
    List.sum_nil, add_zero, show val2.Z l = true from rfl, bool01_true]
  have h := bool01_le_one (val2.X (1, 2, 10) l)
  linarith

lemma releaseOK_inst2 : releaseOK inst2 val2 = true := by
  rw [releaseOK_iff]
  intro c hc l _
  rw [validCombinations_inst2, List.mem_singleton] at hc
  subst hc
  show (relHourOf inst2 10 : ℚ) * bool01 (val2.X (1, 2, 10) l) ≤ val2.T l
  rw [show relHourOf inst2 10 = 0 from rfl]
  push_cast
  rw [zero_mul]
  by_cases hl : l = 0
  · subst hl
    norm_num [val2]
  · have hb : (l == 0) = false := by simpa using hl
    have ht : val2.T l = 6 := by simp [val2, hb, hl]
    rw [ht]
    norm_num

lemma windowOK_inst2 : windowOK inst2 val2 = true := by
  rw [windowOK_iff]
  intro c hc l _
  rw [validCombinations_inst2, List.mem_singleton] at hc
  subst hc
  constructor
  · show startShiftOf inst2 2 ≤ arrivalExpr inst2 val2 (1, 2, 10) l
    rw [startShiftOf_inst2, arrivalExpr_inst2]
    norm_num
  · show arrivalExpr inst2 val2 (1, 2, 10) l ≤ endShiftOf inst2 2
    rw [endShiftOf_inst2, arrivalExpr_inst2]
    norm_num

lemma count_val2_X : ((trucksL.filter fun l => val2.X (1, 2, 10) l).length) = 1 := by decide

lemma uniqueStreamlitOK_inst2 : uniqueStreamlitOK inst2 val2 = true := by
  rw [uniqueStreamlitOK_iff]
  intro c hc
  rw [validCombinations_inst2, List.mem_singleton] at hc
  subst hc
  have he : (fun l => bool01 (val2.X (1, 2, 10) l) * bool01 (val2.Z l))
      = fun l => bool01 (val2.X (1, 2, 10) l) := by
    funext l
    rw [show val2.Z l = true from rfl, bool01_true, mul_one]
  show ((trucksL.map fun l => bool01 (val2.X (1, 2, 10) l) * bool01 (val2.Z l)).sum) = 1
  rw [he, list_sum_bool01, count_val2_X]
  norm_num

lemma sortTriples_inst2 :
    sortTriples inst2 2 = (List.range 300).map fun l => (1, 10, l) := by decide

lemma sortCapPerDay_inst2 : sortCapPerDay inst2 2 = 100 := by
  rw [sortCapPerDay, startShiftOf_inst2, endShiftOf_inst2, sortRateOf_inst2]
  norm_num

lemma sortingOK_inst2 : sortingOK inst2 val2 = true := by
  rw [sortingOK_iff]
  intro j hj d _
  have hj2 : j = 2 := by simpa [inst2] using hj
  subst hj2
  rw [sortCapPerDay_inst2]
  have hL : sortLHS inst2 val2 2 d
      = ((List.range 300).map fun l =>
          bool01 (val2.X (1, 2, 10) l) * qtyOf inst2 10 * bool01 (val2.B l d)).sum := by
    rw [sortLHS, sortTriples_inst2, List.map_map]
    rfl
  rw [hL]
  have hb : ∀ l ∈ List.range 300,
      bool01 (val2.X (1, 2, 10) l) * qtyOf inst2 10 * bool01 (val2.B l d)
        ≤ 5 * bool01 (val2.X (1, 2, 10) l) := by
    intro l _
    have h1 := bool01_le_one (val2.B l d)
    have h0 := bool01_nonneg (val2.B l d)
    have h2 := bool01_le_one (val2.X (1, 2, 10) l)
    have h3 := bool01_nonneg (val2.X (1, 2, 10) l)
    rw [qtyOf_inst2]
    nlinarith
  have hs := List.sum_le_sum hb
  have hr : ((List.range 300).map fun l => 5 * bool01 (val2.X (1, 2, 10) l)).sum = 5 := by
    rw [List.sum_map_mul_left]
    have h4 : ((List.range 300).map fun l => bool01 (val2.X (1, 2, 10) l)).sum
        = (((List.range 300).filter fun l => val2.X (1, 2, 10) l).length : ℚ) :=
      list_sum_bool01 _ _
    rw [h4, show ((List.range 300).filter fun l => val2.X (1, 2, 10) l).length = 1 by decide]
    norm_num
  calc ((List.range 300).map fun l =>
          bool01 (val2.X (1, 2, 10) l) * qtyOf inst2 10 * bool01 (val2.B l d)).sum
      ≤ ((List.range 300).map fun l => 5 * bool01 (val2.X (1, 2, 10) l)).sum := hs
    _ = 5 := hr
    _ ≤ 100 := by norm_num

lemma dayAssignOK_val2 : dayAssignOK val2 = true := by
  rw [dayAssignOK_iff]
  intro l _
  norm_num [daysL_eq, val2, bool01]

lemma tNonnegOK_val2 : tNonnegOK val2 = true := by
  rw [tNonnegOK_iff]
  intro l _
  by_cases hl : l = 0
  · subst hl
    norm_num [val2]
  · have hb : (l == 0) = false := by simpa using hl
    have ht : val2.T l = 6 := by simp [val2, hb, hl]
    rw [ht]
    norm_num

/-- The valuation `val2` satisfies every constraint the interactive builder
emits on `inst2`, although its only assigned trip has a 30-hour travel time
against a [5, 7] shift window. -/
lemma feas2 : feasibleStreamlit inst2 val2 = true :=
  (feasibleStreamlit_iff inst2 val2).mpr
    ⟨capacityOK_inst2, releaseOK_inst2, windowOK_inst2, uniqueStreamlitOK_inst2,
      sortingOK_inst2, dayAssignOK_val2, tNonnegOK_val2⟩

lemma specArrivalExpr_inst2 : specArrivalExpr inst2 val2 (1, 2, 10) 0 = 30 := by
  have h : specArrivalExpr inst2 val2 (1, 2, 10) 0
      = val2.T 0 + travelTimeOf inst2 1 2 * bool01 (val2.X (1, 2, 10) 0)
        + 24 * daySum val2 0 := rfl
  rw [h, daySum_val2, travelTimeOf_inst2]
  norm_num [val2, bool01]

lemma specDayAssignOK_valZero : specDayAssignOK valZero = true := by
  rw [specDayAssignOK, List.all_eq_true]
  intro l _
  rw [decide_eq_true_eq]
  norm_num [daysL_eq, valZero, bool01]

lemma dayAssignOK_valZero : dayAssignOK valZero = false := by
  rw [Bool.eq_false_iff]
  intro h
  rw [dayAssignOK_iff] at h
  have h0 := h 0 (by decide)
  norm_num [daysL_eq, valZero, bool01] at h0

lemma mem_routesList {I : Inst} {p : ℕ × ℕ} :
    p ∈ routesList I ↔ p.1 ∈ I.sources ∧ p.2 ∈ I.destinations ∧ p.1 ≠ p.2 := by
  cases p with
  | mk i j =>
    simp only [routesList, List.mem_flatMap, List.mem_map, List.mem_filter,
      bne_iff_ne, Prod.mk.injEq]
    constructor
    · rintro ⟨a, ha, b, ⟨hb, hne⟩, rfl, rfl⟩
      exact ⟨ha, hb, hne⟩
    · rintro ⟨hi, hj, hne⟩
      exact ⟨i, hi, j, ⟨hj, hne⟩, rfl, rfl⟩

lemma mem_consignmentList {I : Inst} {k : ℕ} :
    k ∈ consignmentList I ↔
      ∃ r ∈ I.consignments, (r.origin, r.dest) ∈ routesList I ∧ r.id = k := by
  simp only [consignmentList, List.mem_flatMap, List.mem_map, List.mem_filter,
    Bool.and_eq_true, beq_iff_eq]
  constructor
  · rintro ⟨p, hp, r, ⟨hr, ho, hd⟩, rfl⟩
    refine ⟨r, hr, ?_, rfl⟩
    rw [ho, hd]
    exact (by simpa using hp : (p.1, p.2) ∈ routesList I)
  · rintro ⟨r, hr, hroute, rfl⟩
    exact ⟨(r.origin, r.dest), hroute, r, ⟨hr, rfl, rfl⟩, rfl⟩

lemma mem_validCombinations {I : Inst} {x : ℕ × ℕ × ℕ} :
    x ∈ validCombinations I ↔
      (x.1, x.2.1) ∈ routesList I ∧ x.2.2 ∈ consignmentList I ∧
        ∃ r ∈ I.consignments, r.origin = x.1 ∧ r.dest = x.2.1 ∧ r.id = x.2.2 := by
  simp only [validCombinations, List.mem_flatMap, List.mem_map, List.mem_filter,
    List.elem_iff, Bool.and_eq_true, beq_iff_eq]
  constructor
  · rintro ⟨p, hp, k, ⟨hk, hcont⟩, rfl⟩
    have hcont' : k ∈ (I.consignments.filter
        fun r => r.origin == p.1 && r.dest == p.2).map fun r => r.id := by
      simpa [List.elem_iff] using hcont
    obtain ⟨r, hr, hrk⟩ := List.mem_map.mp hcont'
    obtain ⟨hrmem, hro, hrd⟩ : r ∈ I.consignments ∧ r.origin = p.1 ∧ r.dest = p.2 := by
      have := List.mem_filter.mp hr
      exact ⟨this.1, by simpa [Bool.and_eq_true, beq_iff_eq] using this.2⟩
    refine ⟨by simpa using hp, hk, r, hrmem, hro, hrd, hrk⟩
  · rintro ⟨hroute, hk, r, hr, hro, hrd, hri⟩
    refine ⟨(x.1, x.2.1), by simpa using hroute, x.2.2, ⟨hk, ?_⟩, rfl⟩
    have : x.2.2 ∈ (I.consignments.filter
        fun s => s.origin == x.1 && s.dest == x.2.1).map fun s => s.id := by
      refine List.mem_map.mpr ⟨r, List.mem_filter.mpr ⟨hr, ?_⟩, hri⟩
      simp [Bool.and_eq_true, beq_iff_eq, hro, hrd]
    simpa [List.elem_iff] using this

lemma row_eq_of_id_eq {I : Inst}
    (hIds : (I.consignments.map fun r => r.id).Nodup)
    {r r' : Consignment} (hr : r ∈ I.consignments) (hr' : r' ∈ I.consignments)
    (h : r.id = r'.id) : r = r' :=
  List.inj_on_of_nodup_map hIds hr hr' h

lemma routesList_nodup {I : Inst} (hS : I.sources.Nodup)
    (hD : I.destinations.Nodup) : (routesList I).Nodup := by
  rw [routesList, List.nodup_flatMap]
  constructor
  · intro i _
    exact (hD.filter _).map fun a b hab => by injection hab
  · refine hS.imp ?_
    intro a b hne x hxa hxb
    obtain ⟨j, _, rfl⟩ := List.mem_map.mp hxa
    obtain ⟨j', _, he⟩ := List.mem_map.mp hxb
    exact hne (by injection he with h1 h2; exact h1.symm)

lemma consignmentList_nodup {I : Inst} (hS : I.sources.Nodup)
    (hD : I.destinations.Nodup)
    (hIds : (I.consignments.map fun r => r.id).Nodup) :
    (consignmentList I).Nodup := by
  rw [consignmentList, List.nodup_flatMap]
  constructor
  · intro p _
    exact hIds.sublist ((List.filter_sublist _).map _)
  · refine (routesList_nodup hS hD).imp ?_
    intro p p' hne k hkp hkp'
    obtain ⟨r, hr, hrk⟩ := List.mem_map.mp hkp
    obtain ⟨r', hr', hrk'⟩ := List.mem_map.mp hkp'
    obtain ⟨hrm, hro, hrd⟩ : r ∈ I.consignments ∧ r.origin = p.1 ∧ r.dest = p.2 := by
      have := List.mem_filter.mp hr
      exact ⟨this.1, by simpa [Bool.and_eq_true, beq_iff_eq] using this.2⟩
    obtain ⟨hrm', hro', hrd'⟩ : r' ∈ I.consignments ∧ r'.origin = p'.1 ∧ r'.dest = p'.2 := by
      have := List.mem_filter.mp hr'
      exact ⟨this.1, by simpa [Bool.and_eq_true, beq_iff_eq] using this.2⟩
    have hrr : r = r' := row_eq_of_id_eq hIds hrm hrm' (by rw [hrk, hrk'])
    subst hrr
    exact hne (Prod.ext (by rw [← hro, hro']) (by rw [← hrd, hrd']))

lemma validCombinations_nodup {I : Inst} (hS : I.sources.Nodup)
    (hD : I.destinations.Nodup)
    (hIds : (I.consignments.map fun r => r.id).Nodup) :
    (validCombinations I).Nodup := by
  rw [validCombinations, List.nodup_flatMap]
  constructor
  · intro p _
    exact ((consignmentList_nodup hS hD hIds).filter _).map
      fun a b hab => by injection hab with h1 h2; injection h2 with h3 h4
  · refine (routesList_nodup hS hD).imp ?_
    intro p p' hne x hxp hxp'
    obtain ⟨k, _, rfl⟩ := List.mem_map.mp hxp
    obtain ⟨k', _, he⟩ := List.mem_map.mp hxp'
    apply hne
    injection he with h1 h2
    injection h2 with h3 h4
    exact Prod.ext h1.symm h3.symm

/-- Under unique consignment ids, two valid combinations carrying the same
consignment id are the same triple. -/
lemma combo_eq_of_id {I : Inst}
    (hIds : (I.consignments.map fun r => r.id).Nodup)
    {c c' : ℕ × ℕ × ℕ} (hc : c ∈ validCombinations I)
    (hc' : c' ∈ validCombinations I) (h : c.2.2 = c'.2.2) : c = c' := by
  obtain ⟨_, _, r, hr, hro, hrd, hri⟩ := mem_validCombinations.mp hc
  obtain ⟨_, _, r', hr', hro', hrd', hri'⟩ := mem_validCombinations.mp hc'
  have hrr : r = r' := row_eq_of_id_eq hIds hr hr' (by rw [hri, hri', h])
  subst hrr
  exact Prod.ext (by rw [← hro, hro']) (Prod.ext (by rw [← hrd, hrd']) h)

/-- A nonempty duplicate-free list whose elements all equal `a` is `[a]`. -/
lemma nodup_all_eq_singleton {α : Type _} {L : List α} {a : α} (hN : L.Nodup)
    (ha : a ∈ L) (hall : ∀ x ∈ L, x = a) : L = [a] := by
  cases L with
  | nil => cases ha
  | cons b t =>
    have hb : b = a := hall b (List.mem_cons_self _ _)
    have ht : t = [] := by
      cases t with
      | nil => rfl
      | cons c u =>
        exfalso
        have hc : c = a := hall c (List.mem_cons_of_mem _ (List.mem_cons_self _ _))
        apply (List.nodup_cons.mp hN).1
        rw [hb, ← hc]
        exact List.mem_cons_self _ _
    rw [ht, hb]

lemma trucksL_nodup : trucksL.Nodup := by
  rw [trucksL]
  exact List.nodup_range _

lemma mem_triple_prod {L1 L2 L3 : List ℕ} {x : ℕ × ℕ × ℕ} :
    x ∈ (L1.flatMap fun i => L2.flatMap fun k => L3.map fun l => (i, k, l)) ↔
      x.1 ∈ L1 ∧ x.2.1 ∈ L2 ∧ x.2.2 ∈ L3 := by
  simp only [List.mem_flatMap, List.mem_map]
  constructor
  · rintro ⟨i, hi, k, hk, l, hl, rfl⟩
    exact ⟨hi, hk, hl⟩
  · rintro ⟨hi, hk, hl⟩
    exact ⟨x.1, hi, x.2.1, hk, x.2.2, hl, rfl⟩

lemma nodup_triple_prod {L1 L2 L3 : List ℕ} (h1 : L1.Nodup) (h2 : L2.Nodup)
    (h3 : L3.Nodup) :
    (L1.flatMap fun i => L2.flatMap fun k => L3.map fun l => (i, k, l)).Nodup := by
  rw [List.nodup_flatMap]
  constructor
  · intro i _
    rw [List.nodup_flatMap]
    constructor
    · intro k _
      exact h3.map fun a b hab => congrArg (fun t : ℕ × ℕ × ℕ => t.2.2) hab
    · refine h2.imp ?_
      intro a b hne x hxa hxb
      obtain ⟨l, -, rfl⟩ := List.mem_map.mp hxa
      obtain ⟨l', -, he⟩ := List.mem_map.mp hxb
      exact hne (congrArg (fun t : ℕ × ℕ × ℕ => t.2.1) he).symm
  · refine h1.imp ?_
    intro a b hne x hxa hxb
    obtain ⟨k, -, hy⟩ := List.mem_flatMap.mp hxa
    obtain ⟨l, -, rfl⟩ := List.mem_map.mp hy
    obtain ⟨k', -, hy'⟩ := List.mem_flatMap.mp hxb
    obtain ⟨l', -, he⟩ := List.mem_map.mp hy'
    exact hne (congrArg (fun t : ℕ × ℕ × ℕ => t.1) he).symm

lemma mem_sortTriples {I : Inst} {j : ℕ} {t : ℕ × ℕ × ℕ} :
    t ∈ sortTriples I j ↔
      t.1 ∈ I.sources ∧ j ≠ t.1 ∧ t.2.1 ∈ consignmentList I ∧ t.2.2 ∈ trucksL ∧
        (t.1, j, t.2.1) ∈ validCombinations I := by
  rw [sortTriples, List.mem_filter, mem_triple_prod, List.mem_filter]
  constructor
  · rintro ⟨⟨⟨h1, h2⟩, h3, h4⟩, h5⟩
    exact ⟨h1, by simpa using h2, h3, h4, by simpa [List.elem_iff] using h5⟩
  · rintro ⟨h1, h2, h3, h4, h5⟩
    exact ⟨⟨⟨h1, by simpa using h2⟩, h3, h4⟩, by simpa [List.elem_iff] using h5⟩

lemma sortTriples_nodup {I : Inst} {j : ℕ} (hS : I.sources.Nodup)
    (hD : I.destinations.Nodup)
    (hIds : (I.consignments.map fun r => r.id).Nodup) :
    (sortTriples I j).Nodup :=
  (nodup_triple_prod (hS.filter _) (consignmentList_nodup hS hD hIds)
    trucksL_nodup).filter _

lemma mem_assignPairs {I : Inst} {j : ℕ} {x : (ℕ × ℕ × ℕ) × ℕ} :
    x ∈ assignPairs I j ↔
      x.1 ∈ validCombinations I ∧ x.1.2.1 = j ∧ x.2 ∈ trucksL := by
  simp only [assignPairs, List.mem_flatMap, List.mem_filter, List.mem_map, beq_iff_eq]
  constructor
  · rintro ⟨c, ⟨hc, hcj⟩, l, hl, rfl⟩
    exact ⟨hc, hcj, hl⟩
  · rintro ⟨hc, hcj, hl⟩
    exact ⟨x.1, ⟨hc, hcj⟩, x.2, hl, rfl⟩

lemma assignPairs_nodup {I : Inst} {j : ℕ} (hS : I.sources.Nodup)
    (hD : I.destinations.Nodup)
    (hIds : (I.consignments.map fun r => r.id).Nodup) :
    (assignPairs I j).Nodup := by
  rw [assignPairs, List.nodup_flatMap]
  constructor
  · intro c _
    refine trucksL_nodup.map fun a b hab => ?_
    injection hab
  · refine ((validCombinations_nodup hS hD hIds).filter _).imp ?_
    intro a b hne x hxa hxb
    obtain ⟨l, _, rfl⟩ := List.mem_map.mp hxa
    obtain ⟨l', _, he⟩ := List.mem_map.mp hxb
    injection he with e1 e2
    exact hne e1.symm

lemma perm_of_nodup_of_mem_iff {α : Type _} [DecidableEq α] {L1 L2 : List α}
    (h1 : L1.Nodup) (h2 : L2.Nodup) (h : ∀ a, a ∈ L1 ↔ a ∈ L2) :
    L1.Perm L2 := by
  rw [List.perm_iff_count]
  intro a
  by_cases ha : a ∈ L1
  · rw [List.count_eq_one_of_mem h1 ha, List.count_eq_one_of_mem h2 ((h a).mp ha)]
  · rw [List.count_eq_zero_of_not_mem ha,
      List.count_eq_zero_of_not_mem fun hx => ha ((h a).mpr hx)]

/-- The gated iteration of the sorting-capacity constraint enumerates, up to
permutation, exactly the (valid combination, truck) pairs bound for the
destination. -/
lemma map_sortTriples_perm (I : Inst) (j : ℕ) (hS : I.sources.Nodup)
    (hD : I.destinations.Nodup)
    (hIds : (I.consignments.map fun r => r.id).Nodup) :
    ((sortTriples I j).map fun t => ((t.1, j, t.2.1), t.2.2)).Perm
      (assignPairs I j) := by
  apply perm_of_nodup_of_mem_iff
  · refine (sortTriples_nodup hS hD hIds).map fun a b hab => ?_
    injection hab with e1 e2
    injection e1 with e3 e4
    injection e4 with e5 e6
    exact Prod.ext e3 (Prod.ext e6 e2)
  · exact assignPairs_nodup hS hD hIds
  · intro x
    rw [List.mem_map, mem_assignPairs]
    constructor
    · rintro ⟨t, ht, rfl⟩
      obtain ⟨h1, h2, h3, h4, h5⟩ := mem_sortTriples.mp ht
      exact ⟨h5, rfl, h4⟩
    · rintro ⟨hc, hcj, hl⟩
      refine ⟨(x.1.1, x.1.2.2, x.2), ?_, ?_⟩
      · obtain ⟨hroute, hk, -⟩ := mem_validCombinations.mp hc
        obtain ⟨hsrc, hdst, hne⟩ := mem_routesList.mp hroute
        rw [mem_sortTriples]
        refine ⟨hsrc, ?_, hk, hl, ?_⟩
        · intro he
          exact hne (by rw [← he, hcj])
        · have hx1 : x.1 = (x.1.1, j, x.1.2.2) := by
            rw [← hcj]
          rwa [← hx1]
      · show ((x.1.1, j, x.1.2.2), x.2) = x
        have hx1 : x.1 = (x.1.1, j, x.1.2.2) := by
          rw [← hcj]
        rw [← hx1]

/-- The semantic per-day arrival quantity coincides with the sum the sorting
constraint bounds. -/
lemma arrivedQty_eq_sortLHS {I : Inst} {V : Valuation} {j d : ℕ}
    (hS : I.sources.Nodup) (hD : I.destinations.Nodup)
    (hIds : (I.consignments.map fun r => r.id).Nodup) :
    arrivedQty I V j d = sortLHS I V j d := by
  have hperm := (map_sortTriples_perm I j hS hD hIds).map
    fun cl => bool01 (V.X cl.1 cl.2) * qtyOf I cl.1.2.2 * bool01 (V.B cl.2 d)
  have hsum := hperm.sum_eq
  rw [List.map_map] at hsum
  rw [arrivedQty, sortLHS]
  exact hsum.symm

lemma arrivalExpr_eq_spec (I : Inst) (V : Valuation) (c : ℕ × ℕ × ℕ) (l : ℕ) :
    arrivalExpr I V c l = specArrivalExpr I V c l - 24 * (V.M c l : ℚ) := rfl

/-- Claim C1: in the batch builder's model the per-consignment equality
constraints (`quicksum(X[(i,j,k,l)] for l in trucks) == 1` for every valid
combination) force, for every consignment id `k` of the valid-combination
set, the sum of `X` over all compatible routes and all 300 trucks to be
exactly 1, and exactly one (combination, truck) pair carries `k`. -/
theorem c1_unique_assignment (I : Inst) (V : Valuation)
    (hS : I.sources.Nodup) (hD : I.destinations.Nodup)
    (hIds : (I.consignments.map fun r => r.id).Nodup)
    (hfam : uniqueGurobiOK I V = true)
    (k : ℕ) (hk : k ∈ (validCombinations I).map fun c => c.2.2) :
    consignAssignTotal I V k = 1 ∧ (carrierPairs I V k).length = 1 := by
  obtain ⟨c₀, hc₀, hk₀⟩ := List.mem_map.mp hk
  have hfilt : ((validCombinations I).filter fun c => c.2.2 == k) = [c₀] := by
    apply nodup_all_eq_singleton ((validCombinations_nodup hS hD hIds).filter _)
    · exact List.mem_filter.mpr ⟨hc₀, by simp [hk₀]⟩
    · intro x hx
      have hxm := (List.mem_filter.mp hx).1
      have hxk : x.2.2 = k := by simpa using (List.mem_filter.mp hx).2
      exact combo_eq_of_id hIds hxm hc₀ (by rw [hxk, hk₀])
  have hsum := (uniqueGurobiOK_iff I V).mp hfam c₀ hc₀
  constructor
  · rw [consignAssignTotal, hfilt, List.map_cons, List.map_nil, List.sum_cons,
      List.sum_nil, add_zero, hsum]
  · rw [carrierPairs, hfilt, List.flatMap_cons, List.flatMap_nil,
      List.append_nil, List.length_map]
    have hq := hsum
    rw [list_sum_bool01] at hq
    exact_mod_cast hq

theorem c1_unique_assignment_witness :
    uniqueGurobiOK inst1 val1 = true ∧
      (consignAssignTotal inst1 val1 10 = 1 ∧ (carrierPairs inst1 val1 10).length = 1) :=
  ⟨uniqueGurobiOK_inst1,
    c1_unique_assignment inst1 val1 (by decide) (by decide) (by decide)
      uniqueGurobiOK_inst1 10 (by decide)⟩

/-- Claim C2 (code evaluated at the failing input): the all-unused valuation
satisfies the day-assignment constraint exactly as the specification states
it (`sum over d of ArrivalDayBinary * Z == Z`), but violates the constraint
the interactive builder actually emits (`== 1`): the code's constraint
refuses every unused truck. -/
theorem c2_day_constraint_code_vs_spec :
    specDayAssignOK valZero = true ∧ dayAssignOK valZero = false :=
  ⟨specDayAssignOK_valZero, dayAssignOK_valZero⟩

/-- Claim C3, counterexample: a fully feasible model valuation of `inst2` in
which the claimed arrival-hour expression (without the `- 24 * multiplier`
term) of the assigned combination and truck lies outside the destination's
shift window: the builder does not constrain the claimed expression itself. -/
theorem c3_counterexample :
    (1, 2, 10) ∈ validCombinations inst2 ∧ 0 ∈ trucksL ∧
      feasibleStreamlit inst2 val2 = true ∧
      ¬(startShiftOf inst2 2 ≤ specArrivalExpr inst2 val2 (1, 2, 10) 0 ∧
        specArrivalExpr inst2 val2 (1, 2, 10) 0 ≤ endShiftOf inst2 2) := by
  refine ⟨by decide, by decide, feas2, ?_⟩
  rw [specArrivalExpr_inst2, startShiftOf_inst2, endShiftOf_inst2]
  norm_num

/-- Claim C3, amended: for every valid combination and truck of a feasible
solution there is a nonnegative integer `m` (the value of the fresh
`multiplier` variable of that combination and truck) such that
`T[l] + travel_time * X + 24 * sum((d-1) * ArrivalDayBinary) - 24 * m` lies
within the destination's shift window. -/
theorem c3_amended_window (I : Inst) (V : Valuation)
    (h : feasibleStreamlit I V = true) :
    ∀ c ∈ validCombinations I, ∀ l ∈ trucksL,
      ∃ m : ℕ, startShiftOf I c.2.1 ≤ specArrivalExpr I V c l - 24 * (m : ℚ) ∧
        specArrivalExpr I V c l - 24 * (m : ℚ) ≤ endShiftOf I c.2.1 := by
  have hw := (windowOK_iff I V).mp ((feasibleStreamlit_iff I V).mp h).2.2.1
  intro c hc l hl
  refine ⟨V.M c l, ?_, ?_⟩
  · rw [← arrivalExpr_eq_spec]
    exact (hw c hc l hl).1
  · rw [← arrivalExpr_eq_spec]
    exact (hw c hc l hl).2

theorem c3_amended_window_witness :
    feasibleStreamlit inst1 val1 = true ∧
      (∃ m : ℕ, startShiftOf inst1 2 ≤ specArrivalExpr inst1 val1 (1, 2, 10) 0 - 24 * (m : ℚ) ∧
        specArrivalExpr inst1 val1 (1, 2, 10) 0 - 24 * (m : ℚ) ≤ endShiftOf inst1 2) :=
  ⟨feas1, c3_amended_window inst1 val1 feas1 (1, 2, 10) (by decide) 0 (by decide)⟩

/-- Claim C4: in every feasible solution of the interactive model, for every
destination and every horizon day, the quantity-weighted arrival sum the
builder bounds is at most the shift-window length times the hourly sorting
rate scaled by one half, and that sum equals the total quantity arriving on
that day (summed over the (combination, truck) pairs bound for the
destination). -/
theorem c4_sorting_capacity (I : Inst) (V : Valuation)
    (h : feasibleStreamlit I V = true)
    (hS : I.sources.Nodup) (hD : I.destinations.Nodup)
    (hIds : (I.consignments.map fun r => r.id).Nodup) :
    ∀ j ∈ I.destinations, ∀ d ∈ daysL,
      sortLHS I V j d ≤ (endShiftOf I j - startShiftOf I j) / 2 * sortRateOf I j ∧
        arrivedQty I V j d = sortLHS I V j d := by
  intro j hj d hd
  have hsort := (sortingOK_iff I V).mp
    ((feasibleStreamlit_iff I V).mp h).2.2.2.2.1 j hj d hd
  rw [sortCapPerDay] at hsort
  exact ⟨hsort, arrivedQty_eq_sortLHS hS hD hIds⟩

theorem c4_sorting_capacity_witness :
    feasibleStreamlit inst1 val1 = true ∧
      (sortLHS inst1 val1 2 1 ≤
          (endShiftOf inst1 2 - startShiftOf inst1 2) / 2 * sortRateOf inst1 2 ∧
        arrivedQty inst1 val1 2 1 = sortLHS inst1 val1 2 1) :=
  ⟨feas1, c4_sorting_capacity inst1 val1 feas1 (by decide) (by decide) (by decide)
    2 (by decide) 1 (by decide)⟩

/-- Claim C5: in every feasible solution, every truck of the pool carries at
most 2 consignments, and a truck with `Z[l] = 0` carries none: the capacity
constraint `quicksum(X) <= 2 * Z[l]` enforces both. -/
theorem c5_truck_capacity (I : Inst) (V : Valuation)
    (h : feasibleStreamlit I V = true) :
    ∀ l ∈ trucksL, carriedCount I V l ≤ 2 ∧
      (V.Z l = false → ∀ c ∈ validCombinations I, V.X c l = false) := by
  have hcap := (capacityOK_iff I V).mp ((feasibleStreamlit_iff I V).mp h).1
  intro l hl
  have hs := hcap l hl
  rw [list_sum_bool01] at hs
  constructor
  · have hb := bool01_le_one (V.Z l)
    have h2 : ((carriedCount I V l : ℕ) : ℚ) ≤ 2 := by
      rw [carriedCount]
      linarith
    exact_mod_cast h2
  · intro hz c hc
    rw [hz, bool01_false, mul_zero] at hs
    have hc0 : ((validCombinations I).filter fun c => V.X c l).length = 0 := by
      exact_mod_cast le_antisymm hs (by positivity)
    have hnil := List.length_eq_zero.mp hc0
    have := List.filter_eq_nil_iff.mp hnil c hc
    simpa using this

theorem c5_truck_capacity_witness :
    feasibleStreamlit inst1 val1 = true ∧
      (carriedCount inst1 val1 0 ≤ 2 ∧
        (val1.Z 0 = false → ∀ c ∈ validCombinations inst1, val1.X c 0 = false)) :=
  ⟨feas1, c5_truck_capacity inst1 val1 feas1 0 (by decide)⟩

/-- Claim C6, counterexample: on `inst3` the consignment with id 11 is
present in the input, its origin/destination pair (3, 2) is absent from the
route catalog, yet model construction runs through and silently omits it
from both the consignment list and the valid-combination set: no
`MissingRouteError` (or any error) is raised anywhere in the builder. -/
theorem c6_counterexample :
    cons2 ∈ inst3.consignments ∧
      ((inst3.routeRows.map fun r => (r.origin, r.dest)).contains
        (cons2.origin, cons2.dest)) = false ∧
      cons2.id ∉ consignmentList inst3 ∧
      (validCombinations inst3).all (fun x => x.2.2 != cons2.id) = true := by decide

/-- Claim C6, amended: a consignment whose origin/destination pair is absent
from the builder's route list is silently omitted: its id appears in neither
the consignment list nor the valid-combination set, and construction
succeeds without raising any error. -/
theorem c6_silent_omission (I : Inst) (c : Consignment)
    (hIds : (I.consignments.map fun r => r.id).Nodup)
    (hc : c ∈ I.consignments)
    (hmiss : (c.origin, c.dest) ∉ routesList I) :
    c.id ∉ consignmentList I ∧ ∀ x ∈ validCombinations I, x.2.2 ≠ c.id := by
  constructor
  · intro hk
    obtain ⟨r, hr, hroute, hid⟩ := mem_consignmentList.mp hk
    have hrc : r = c := row_eq_of_id_eq hIds hr hc hid
    subst hrc
    exact hmiss hroute
  · intro x hx he
    obtain ⟨hroute, -, r, hr, hro, hrd, hri⟩ := mem_validCombinations.mp hx
    have hrc : r = c := row_eq_of_id_eq hIds hr hc (by rw [hri, he])
    subst hrc
    apply hmiss
    rw [hro, hrd]
    exact hroute

theorem c6_silent_omission_witness :
    cons2 ∈ inst3.consignments ∧ (cons2.origin, cons2.dest) ∉ routesList inst3 ∧
      (cons2.id ∉ consignmentList inst3 ∧
        ∀ x ∈ validCombinations inst3, x.2.2 ≠ cons2.id) :=
  ⟨by decide, by decide,
    c6_silent_omission inst3 cons2 (by decide) (by decide) (by decide)⟩

/-- Claim C7, counterexample: when the solver reports infeasible (or
unbounded), `solve` prints `No optimal solution found.` and terminates
normally; it does not raise a `NoFeasibleSolutionError` (no such error path
exists in the code). -/
theorem c7_counterexample :
    solveOutcome inst1 valZero GStatus.infeasible = SolveOutcome.printedNoSolution ∧
      solveOutcome inst1 valZero GStatus.unbounded = SolveOutcome.printedNoSolution ∧
      SolveOutcome.printedNoSolution ≠
        SolveOutcome.raisedError "NoFeasibleSolutionError" :=
  ⟨rfl, rfl, fun h => SolveOutcome.noConfusion h⟩

/-- Claim C7, amended: on every non-accepted solver status (anything other
than optimal, time-limit or sub-optimal) `solve` prints the no-solution
message instead of raising a typed error, and on an optimal status with zero
trucks used it produces an empty plan. -/
theorem c7_amended_solve (I : Inst) (V : Valuation) :
    (∀ s, statusAccepted s = false →
      solveOutcome I V s = SolveOutcome.printedNoSolution) ∧
      ((∀ l ∈ trucksL, V.Z l = false) →
        solveOutcome I V GStatus.optimal = SolveOutcome.plan []) := by
  constructor
  · intro s hs
    simp [solveOutcome, hs]
  · intro hz
    have hnil : extractRows I V = [] := by
      rw [extractRows, List.filter_eq_nil_iff]
      intro cl hcl
      obtain ⟨c, -, hcl'⟩ := List.mem_flatMap.mp hcl
      obtain ⟨l, hl, rfl⟩ := List.mem_map.mp hcl'
      simp [hz l hl]
    simp [solveOutcome, statusAccepted, hnil]

theorem c7_amended_solve_witness :
    solveOutcome inst1 valZero GStatus.err = SolveOutcome.printedNoSolution ∧
      solveOutcome inst1 valZero GStatus.optimal = SolveOutcome.plan [] :=
  ⟨(c7_amended_solve inst1 valZero).1 GStatus.err rfl,
    (c7_amended_solve inst1 valZero).2 fun _ _ => rfl⟩

/-- Claim C8: shift-time normalization maps the raw start clock time to
`hour + minute / 60` on [0, 24), adds 24 to the raw end hour exactly when
the end precedes the start (midnight crossing), leaves it unchanged
otherwise, keeps the end on [0, 48), and always ends with
`start_hour <= end_hour`. -/
theorem c8_normalize (sh sm eh em : ℕ)
    (hsh : sh ≤ 23) (hsm : sm ≤ 59) (heh : eh ≤ 23) (hem : em ≤ 59) :
    (normalize sh sm eh em).1 = (sh : ℚ) + sm / 60 ∧
      ((normalize sh sm eh em).2 = ((eh : ℚ) + em / 60) + 24 ↔
        ((eh : ℚ) + em / 60) < (sh : ℚ) + sm / 60) ∧
      (¬(((eh : ℚ) + em / 60) < (sh : ℚ) + sm / 60) →
        (normalize sh sm eh em).2 = (eh : ℚ) + em / 60) ∧
      0 ≤ (normalize sh sm eh em).1 ∧ (normalize sh sm eh em).1 < 24 ∧
      0 ≤ (normalize sh sm eh em).2 ∧ (normalize sh sm eh em).2 < 48 ∧
      (normalize sh sm eh em).1 ≤ (normalize sh sm eh em).2 := by
  have hshq : (sh : ℚ) ≤ 23 := by exact_mod_cast hsh
  have hsmq : (sm : ℚ) ≤ 59 := by exact_mod_cast hsm
  have hehq : (eh : ℚ) ≤ 23 := by exact_mod_cast heh
  have hemq : (em : ℚ) ≤ 59 := by exact_mod_cast hem
  have hs0 : (0 : ℚ) ≤ (sh : ℚ) + sm / 60 := by positivity
  have he0 : (0 : ℚ) ≤ (eh : ℚ) + em / 60 := by positivity
  have hs24 : (sh : ℚ) + sm / 60 < 24 := by linarith
  have he24 : (eh : ℚ) + em / 60 < 24 := by linarith
  have hdef : normalize sh sm eh em =
      if (eh : ℚ) + em / 60 < (sh : ℚ) + sm / 60 then
        ((sh : ℚ) + sm / 60, ((eh : ℚ) + em / 60) + 24)
      else ((sh : ℚ) + sm / 60, (eh : ℚ) + em / 60) := rfl
  by_cases hcross : (eh : ℚ) + em / 60 < (sh : ℚ) + sm / 60
  · rw [hdef, if_pos hcross]
    refine ⟨rfl, by simp [hcross], fun hn => absurd hcross hn, hs0, hs24, ?_, ?_, ?_⟩
    · linarith
    · linarith
    · linarith
  · rw [hdef, if_neg hcross]
    refine ⟨rfl, ?_, fun _ => rfl, hs0, hs24, he0, by linarith, by linarith⟩
    constructor
    · intro habs
      linarith
    · intro hlt
      exact absurd hlt hcross

theorem c8_normalize_witness :
    ((22 : ℕ) ≤ 23 ∧ (30 : ℕ) ≤ 59 ∧ (6 : ℕ) ≤ 23 ∧ (15 : ℕ) ≤ 59) ∧
      ((normalize 22 30 6 15).1 = ((22 : ℕ) : ℚ) + (30 : ℕ) / 60 ∧
        ((normalize 22 30 6 15).2 = (((6 : ℕ) : ℚ) + (15 : ℕ) / 60) + 24 ↔
          (((6 : ℕ) : ℚ) + (15 : ℕ) / 60) < ((22 : ℕ) : ℚ) + (30 : ℕ) / 60) ∧
        (¬((((6 : ℕ) : ℚ) + (15 : ℕ) / 60) < ((22 : ℕ) : ℚ) + (30 : ℕ) / 60) →
          (normalize 22 30 6 15).2 = ((6 : ℕ) : ℚ) + (15 : ℕ) / 60) ∧
        0 ≤ (normalize 22 30 6 15).1 ∧ (normalize 22 30 6 15).1 < 24 ∧
        0 ≤ (normalize 22 30 6 15).2 ∧ (normalize 22 30 6 15).2 < 48 ∧
        (normalize 22 30 6 15).1 ≤ (normalize 22 30 6 15).2) :=
  ⟨by norm_num, c8_normalize 22 30 6 15 (by norm_num) (by norm_num) (by norm_num)
    (by norm_num)⟩

/-- Claim C9: the release-time gate uses only the whole-hour component of
the release timestamp: every feasible solution of the interactive model has
`T[l] >= floor_hour(release(k))` whenever truck `l` carries `k`; and a
consignment released at 08:59 admits a feasible solution whose carrying
truck departs exactly at hour 8, strictly earlier than 8 + 59/60. -/
theorem c9_release_floor :
    (∀ (I : Inst) (V : Valuation), feasibleStreamlit I V = true →
      ∀ c ∈ validCombinations I, ∀ l ∈ trucksL, V.X c l = true →
        (relHourOf I c.2.2 : ℚ) ≤ V.T l) ∧
      (feasibleStreamlit inst1 val1 = true ∧ val1.X (1, 2, 10) 0 = true ∧
        val1.T 0 = 8 ∧ relHourOf inst1 10 = 8 ∧ relMinuteOf inst1 10 = 59 ∧
        val1.T 0 < (relHourOf inst1 10 : ℚ) + (relMinuteOf inst1 10 : ℚ) / 60) := by
  constructor
  · intro I V h c hc l hl hx
    have hrel := (releaseOK_iff I V).mp
      ((feasibleStreamlit_iff I V).mp h).2.1 c hc l hl
    rw [hx, bool01_true, mul_one] at hrel
    exact hrel
  · refine ⟨feas1, rfl, rfl, rfl, rfl, ?_⟩
    rw [show val1.T 0 = 8 from rfl, relHourOf_inst1,
      show relMinuteOf inst1 10 = 59 from rfl]
    norm_num

/-- Claim C10: in the interactive model every feasible solution marks all
300 trucks of the pool as used: the emitted day-assignment constraint
`quicksum(ArrivalDayBinary[(l,d)] * Z[l] for d) == 1` is unsatisfiable with
`Z[l] = 0`. -/
theorem c10_all_trucks_used (I : Inst) (V : Valuation)
    (h : feasibleStreamlit I V = true) : ∀ l ∈ trucksL, V.Z l = true := by
  have hday := (dayAssignOK_iff V).mp ((feasibleStreamlit_iff I V).mp h).2.2.2.2.2.1
  intro l hl
  by_contra hz
  have hz' : V.Z l = false := by simpa using hz
  have hs := hday l hl
  rw [hz'] at hs
  have h0 : ((daysL.map fun d => bool01 (V.B l d) * bool01 false).sum) = 0 := by
    apply List.sum_eq_zero
    intro x hx
    obtain ⟨d, -, rfl⟩ := List.mem_map.mp hx
    rw [bool01_false, mul_zero]
  rw [h0] at hs
  norm_num at hs

theorem c10_all_trucks_used_witness :
    feasibleStreamlit inst1 val1 = true ∧ ∀ l ∈ trucksL, val1.Z l = true :=
  ⟨feas1, c10_all_trucks_used inst1 val1 feas1⟩

end DHLOpt
